import Mathlib

set_option maxRecDepth 8192

/-!
Verification of the Supabase MCP self-hosted gateway
(`src/supabase_server_simple.py` and `mcp_hub.py`).

The Python handlers are shallowly embedded: JSON values are an inductive
type, the PostgreSQL client is an oracle parameter, and each handler
becomes a pure function.  Exceptions that escape a handler body are
modelled with `Except Unit`.
-/

/-- JSON values as produced by `json.loads` / consumed by `json.dumps`.
Numbers are modelled as integers (all numerals in the handlers are
integers).  Objects keep insertion order, like Python dicts; objects
coming from `json.loads` have distinct keys. -/
inductive Json where
  | null
  | bool (b : Bool)
  | num (n : Int)
  | str (s : String)
  | arr (xs : List Json)
  | obj (fields : List (String × Json))

/-- First binding of a key in an association list (Python dict lookup;
objects built by the server never shadow keys). -/
def lookupField : List (String × Json) → String → Option Json
  | [], _ => none
  | (k', v) :: rest, k => if k' = k then some v else lookupField rest k

/-- Python truthiness of a JSON value (`if x:`). -/
def jsonTruthy : Json → Bool
  | .null => false
  | .bool b => b
  | .num n => n != 0
  | .str s => s ≠ ""
  | .arr xs => !xs.isEmpty
  | .obj fs => !fs.isEmpty

mutual
/-- Python `str()` / f-string rendering of a JSON value (`repr` for nested
values, as Python renders lists and dicts). -/
def pyStr : Json → String
  | .str s => s
  | j => pyRepr j

def pyRepr : Json → String
  | .null => "None"
  | .bool true => "True"
  | .bool false => "False"
  | .num n => toString n
  | .str s => "'" ++ s ++ "'"
  | .arr xs => "[" ++ String.intercalate ", " (pyReprList xs) ++ "]"
  | .obj fs => "\x7b" ++ String.intercalate ", " (pyReprFields fs) ++ "\x7d"

def pyReprList : List Json → List String
  | [] => []
  | j :: rest => pyRepr j :: pyReprList rest

def pyReprFields : List (String × Json) → List String
  | [] => []
  | (k, v) :: rest => ("'" ++ k ++ "': " ++ pyRepr v) :: pyReprFields rest
end

/-- A JSON-RPC error object (`{"code": ..., "message": ...}`). -/
structure RpcErr where
  code : Int
  message : String
deriving DecidableEq

def rpcErrJson (e : RpcErr) : Json :=
  .obj [("code", .num e.code), ("message", .str e.message)]

/-- Outcome of one psycopg `execute`/`fetchall` round trip, as seen by the
handlers.  `execErr` is an exception raised by `connect`/`execute`
(message is `str(e)`), `fetchErr` an exception raised by `fetchall`
(`rows` stays unset / `None`), `rows` a successful fetch. -/
inductive FetchResult where
  | execErr (msg : String)
  | fetchErr (msg : String)
  | rows (rs : List (List Json))

/-- Oracle for the external PostgreSQL server: `connectErr` is the outcome
of a bare `psycopg.connect` (used by `check_health`), `query` the outcome
of connect+execute+fetch for a given statement and parameter list.  The
statement is a `Json` value because `_dispatch_tool` passes the raw
`sql` argument to `cur.execute` without checking its type. -/
structure Db where
  connectErr : Option String
  query : Json → List Json → FetchResult

/-- Environment configuration read at module load
(`SUPABASE_URL`, `SUPABASE_ANON_KEY`, `SUPABASE_SERVICE_ROLE_KEY`,
`DATABASE_URL`, `SUPABASE_AUTH_JWT_SECRET`, the enabled-tools allow-list
from `TOOLS_CONFIG_PATH`, and the server name/version). -/
structure Config where
  supabaseUrl : String
  anonKey : String
  serviceRoleKey : String
  databaseUrl : Option String
  jwtSecret : String
  enabledTools : Option (List String)
  serverName : String
  serverVersion : String

/-- Python truthiness of an optional string (`if err:` where `err` is
`None` or a `str`). -/
def strTruthy : Option String → Bool
  | some s => s ≠ ""
  | none => false

def jsonOfOptStr : Option String → Json
  | some s => .str s
  | none => .null

/-- `{"content": [{"type": "text", "text": v}]}` -/
def textContentJ (v : Json) : Json :=
  .obj [("content", .arr [.obj [("type", .str "text"), ("text", v)]])]

def textContent (t : String) : Json := textContentJ (.str t)

/-- One cell of a fetched row: `"" if v is None else str(v)`. -/
def cellStr : Json → String
  | .null => ""
  | v => pyStr v

/-- `MCPHandler._execute_sql_text`: returns `(text, error)`. -/
def executeSqlText (cfg : Config) (db : Db) (sql : String) (params : List Json) :
    Option String × Option String :=
  match cfg.databaseUrl with
  | none => (none, some "Missing DATABASE_URL")
  | some _ =>
    match db.query (.str sql) params with
    | .execErr m => (none, some m)
    | .fetchErr _ => (some "OK", none)
    | .rows rs =>
      let lines := rs.map (fun row => String.intercalate " | " (row.map cellStr))
      (some (if lines.isEmpty then "(no rows)" else String.intercalate "\n" lines), none)

/-- Shared shape of the `_dispatch_tool` branches that call
`_execute_sql_text` and wrap the outcome
(`list_extensions`, `list_auth_users`, `list_storage_buckets`,
`get_database_connections`, `list_storage_objects`):
`if err: return (None, {code, pre+err})` else a text content block. -/
def simpleSqlTool (cfg : Config) (db : Db) (sql : String) (params : List Json)
    (code : Int) (pre : String) : Option Json × Option RpcErr :=
  let r := executeSqlText cfg db sql params
  if strTruthy r.2 then (none, some ⟨code, pre ++ r.2.getD ""⟩)
  else (some (textContentJ (jsonOfOptStr r.1)), none)

/-- `tool_args.get(k)`: raises (`.error`) when the arguments value is not
a dict. -/
def argGet (args : Json) (k : String) : Except Unit (Option Json) :=
  match args with
  | .obj fs => .ok (lookupField fs k)
  | _ => .error ()

/-- Tuple unpacking `[(s, t) for (s, t) in rows]` with Python's
`ValueError` message on rows that are not pairs. -/
def unpack2 : List (List Json) → Except String (List (Json × Json))
  | [] => .ok []
  | row :: rest =>
    match row with
    | [a, b] => (unpack2 rest).map (fun l => (a, b) :: l)
    | _ =>
      if row.length < 2 then
        .error ("not enough values to unpack (expected 2, got " ++ toString row.length ++ ")")
      else
        .error "too many values to unpack (expected 2)"

/- SQL statements issued by the tool handlers (whitespace of the Python
triple-quoted literals is condensed; the oracle treats statements
opaquely). -/

def extensionsSql : String := "SELECT extname, extversion FROM pg_extension ORDER BY extname"

def listTablesSql : String :=
  "select table_schema, table_name from information_schema.tables where table_type='BASE TABLE' and table_schema not in ('pg_catalog','information_schema') order by table_schema, table_name"

def authUsersSql : String := "SELECT id::text, email, created_at FROM auth.users ORDER BY created_at DESC LIMIT 50"

def authUserByIdSql : String := "SELECT id::text, email, created_at FROM auth.users WHERE id::text = %s LIMIT 1"

def authUserByEmailSql : String := "SELECT id::text, email, created_at FROM auth.users WHERE email = %s LIMIT 1"

def bucketsSql : String := "SELECT id::text, name, created_at FROM storage.buckets ORDER BY created_at DESC"

def objectsSql : String := "SELECT id::text, name, created_at FROM storage.objects WHERE bucket_id = %s ORDER BY created_at DESC LIMIT 100"

def dbSizeSql : String := "SELECT current_database(), pg_size_pretty(pg_database_size(current_database()))"

def topTablesSql : String :=
  "SELECT schemaname, relname, pg_size_pretty(pg_total_relation_size(relid)) AS size FROM pg_catalog.pg_statio_user_tables ORDER BY pg_total_relation_size(relid) DESC LIMIT 10"

/-- The `execute_sql` branch of `_dispatch_tool`. -/
def executeSqlBranch (cfg : Config) (db : Db) (args : Json) :
    Except Unit (Option Json × Option RpcErr) :=
  match argGet args "sql" with
  | .error e => .error e
  | .ok v =>
    let sql := v.getD (.str "SELECT 1")
    match cfg.databaseUrl with
    | some _ =>
      match db.query sql [] with
      | .execErr m => .ok (none, some ⟨-32000, "SQL error: " ++ m⟩)
      | .fetchErr _ => .ok (some (textContent "SQL execute ok: OK"), none)
      | .rows rs =>
        .ok (some (textContent ("SQL execute ok: " ++ toString rs.length ++ " rows")), none)
    | none =>
      match sql with
      | .str q => .ok (some (textContent ("SQL execute ok: " ++ q.take 100 ++ "...")), none)
      | .arr xs => .ok (some (textContent ("SQL execute ok: " ++ pyStr (.arr (xs.take 100)) ++ "...")), none)
      | _ => .error ()

/-- The `check_health` branch of `_dispatch_tool`. -/
def checkHealthBranch (cfg : Config) (db : Db) : Option Json × Option RpcErr :=
  match cfg.databaseUrl with
  | some _ =>
    match db.connectErr with
    | none => (some (textContent "Database healthy (self-hosted)"), none)
    | some e => (none, some ⟨-32001, "DB unhealthy: " ++ e⟩)
  | none => (some (textContent "Database healthy"), none)

/-- The `list_tables` branch of `_dispatch_tool`. -/
def listTablesBranch (cfg : Config) (db : Db) : Option Json × Option RpcErr :=
  match cfg.databaseUrl with
  | some _ =>
    match db.query (.str listTablesSql) [] with
    | .execErr m => (none, some ⟨-32002, "List tables error: " ++ m⟩)
    | .fetchErr m => (none, some ⟨-32002, "List tables error: " ++ m⟩)
    | .rows rs =>
      match unpack2 rs with
      | .error m => (none, some ⟨-32002, "List tables error: " ++ m⟩)
      | .ok prs =>
        let lines := prs.map (fun p => pyStr p.1 ++ "." ++ pyStr p.2)
        (some (textContent (if lines.isEmpty then "(no tables)" else String.intercalate "\n" lines)), none)
  | none =>
    (some (textContent "Tables disponibles: users, profiles, posts, comments, etc."), none)

/-- The `get_auth_user` branch of `_dispatch_tool`. -/
def getAuthUserBranch (cfg : Config) (db : Db) (args : Json) :
    Except Unit (Option Json × Option RpcErr) :=
  match argGet args "id" with
  | .error e => .error e
  | .ok uid =>
    match argGet args "email" with
    | .error e => .error e
    | .ok email =>
      let query (sql : String) (p : Json) : Option Json × Option RpcErr :=
        let r := executeSqlText cfg db sql [p]
        if strTruthy r.2 then (none, some ⟨-32021, "Auth user error: " ++ r.2.getD ""⟩)
        else (some (textContent (if strTruthy r.1 then r.1.getD "" else "(not found)")), none)
      if jsonTruthy (uid.getD .null) then
        .ok (query authUserByIdSql (uid.getD .null))
      else if jsonTruthy (email.getD .null) then
        .ok (query authUserByEmailSql (email.getD .null))
      else
        .ok (none, some ⟨-32602, "Missing 'id' or 'email'"⟩)

/-- The `list_storage_objects` branch of `_dispatch_tool`. -/
def listStorageObjectsBranch (cfg : Config) (db : Db) (args : Json) :
    Except Unit (Option Json × Option RpcErr) :=
  match argGet args "bucket_id" with
  | .error e => .error e
  | .ok bid =>
    let bv := bid.getD .null
    if !jsonTruthy bv then .ok (none, some ⟨-32602, "Missing 'bucket_id'"⟩)
    else .ok (simpleSqlTool cfg db objectsSql [bv] (-32031) "Objects error: ")

/-- The `get_database_stats` branch of `_dispatch_tool`. -/
def getDatabaseStatsBranch (cfg : Config) (db : Db) : Option Json × Option RpcErr :=
  let r1 := executeSqlText cfg db dbSizeSql []
  if strTruthy r1.2 then (none, some ⟨-32040, "DB size error: " ++ r1.2.getD ""⟩)
  else
    let r2 := executeSqlText cfg db topTablesSql []
    let txt2 : Option String := if strTruthy r2.2 then some "" else r2.1
    let base := (r1.1).getD ""
    let combined :=
      base ++ (if strTruthy txt2 then "\n\nTop tables:\n" ++ txt2.getD "" else "")
    (some (textContent combined.trim), none)

/-- `MCPHandler._dispatch_tool` once the tool name is known to be a
string; returns `(result, error)`, `.error` when the branch raises. -/
def dispatchToolNamed (cfg : Config) (db : Db) (s : String) (args : Json) :
    Except Unit (Option Json × Option RpcErr) :=
  if s = "execute_sql" then executeSqlBranch cfg db args
  else if s = "list_extensions" then
    .ok (simpleSqlTool cfg db extensionsSql [] (-32010) "Extensions error: ")
  else if s = "apply_migration" ∨ s = "list_migrations" ∨ s = "generate_typescript_types"
      ∨ s = "get_logs" ∨ s = "search_docs" then
    .ok (some (textContent (s ++ " executed (stub).")), none)
  else if s = "check_health" then .ok (checkHealthBranch cfg db)
  else if s = "list_tables" then .ok (listTablesBranch cfg db)
  else if s = "list_auth_users" then
    .ok (simpleSqlTool cfg db authUsersSql [] (-32020) "Auth users error: ")
  else if s = "get_auth_user" then getAuthUserBranch cfg db args
  else if s = "create_auth_user" ∨ s = "delete_auth_user" ∨ s = "update_auth_user" then
    .ok (some (textContent (s ++ " executed (stub).")), none)
  else if s = "list_storage_buckets" then
    .ok (simpleSqlTool cfg db bucketsSql [] (-32030) "Buckets error: ")
  else if s = "list_storage_objects" then listStorageObjectsBranch cfg db args
  else if s = "get_database_stats" then .ok (getDatabaseStatsBranch cfg db)
  else if s = "get_database_connections" then
    .ok (simpleSqlTool cfg db "SELECT datname, count(*) FROM pg_stat_activity GROUP BY datname ORDER BY 2 DESC" [] (-32041) "Connections error: ")
  else if s = "verify_jwt_secret" then
    .ok (some (textContent ("JWT secret " ++ (if cfg.jwtSecret ≠ "" then "present" else "missing"))), none)
  else .ok (none, some ⟨-32601, "Tool '" ++ s ++ "' not found"⟩)

/-- `MCPHandler._dispatch_tool`.  A non-string tool name matches none of
the equality tests and falls through to the `-32601` return. -/
def dispatchTool (cfg : Config) (db : Db) (name : Json) (args : Json) :
    Except Unit (Option Json × Option RpcErr) :=
  match name with
  | .str s => dispatchToolNamed cfg db s args
  | other => .ok (none, some ⟨-32601, "Tool '" ++ pyStr other ++ "' not found"⟩)

/-- One entry of `_get_tools_definition`'s `add(...)`: schema gets a
`required` key only when the required list is non-empty, and the
compat loop duplicates `inputSchema` as `input_schema`. -/
def mkTool (name desc : String) (props : List (String × Json)) (required : List String) : Json :=
  let schema : Json := .obj ([("type", .str "object"), ("properties", .obj props)] ++
    (if required.isEmpty then [] else [("required", .arr (required.map Json.str))]))
  .obj [("name", .str name), ("description", .str desc),
        ("inputSchema", schema), ("input_schema", schema)]

def strProp : Json := .obj [("type", .str "string")]

/-- The static tool list of `_get_tools_definition`, before the
allow-list filter. -/
def baseTools : List Json :=
  [ mkTool "execute_sql" "Executes raw SQL queries" [("sql", strProp)] ["sql"],
    mkTool "list_tables" "Lists all tables in specified schemas"
      [("schemas", .obj [("type", .str "array"), ("items", strProp)])] [],
    mkTool "list_extensions" "Lists all database extensions" [] [],
    mkTool "get_database_stats" "Shows database and top table sizes" [] [],
    mkTool "get_database_connections" "Shows active connection counts by database" [] [],
    mkTool "apply_migration" "Applies a migration (for DDL operations)" [("version", strProp)] ["version"],
    mkTool "list_migrations" "Lists all database migrations" [] [],
    mkTool "generate_typescript_types" "Generates TypeScript types from schema" [] [],
    mkTool "get_logs" "Gets logs by service type (api, postgres, auth, etc.)" [("service", strProp)] [],
    mkTool "search_docs" "Search Supabase documentation using GraphQL" [("query", strProp)] ["query"],
    mkTool "check_health" "Verify your database connection is working" [] [],
    mkTool "list_auth_users" "List auth users (id, email, created_at)" [] [],
    mkTool "get_auth_user" "Get auth user by id or email" [("id", strProp), ("email", strProp)] [],
    mkTool "create_auth_user" "Create auth user (stub)" [("email", strProp), ("password", strProp)] [],
    mkTool "delete_auth_user" "Delete auth user (stub)" [("id", strProp)] [],
    mkTool "update_auth_user" "Update auth user (stub)" [("id", strProp)] [],
    mkTool "list_storage_buckets" "List storage buckets" [] [],
    mkTool "list_storage_objects" "List storage objects in a bucket" [("bucket_id", strProp)] ["bucket_id"],
    mkTool "verify_jwt_secret" "Verify presence of SUPABASE_AUTH_JWT_SECRET env var" [] [] ]

/-- `t.get('name') in ENABLED_TOOLS` (a set of strings; `None` or a
non-string name is never a member). -/
def toolAllowed (l : List String) (t : Json) : Bool :=
  match t with
  | .obj fs =>
    match lookupField fs "name" with
    | some (.str s) => l.contains s
    | _ => false
  | _ => false

/-- `MCPHandler._get_tools_definition`: the static list, filtered by the
allow-list when `ENABLED_TOOLS` is truthy (a non-empty set). -/
def getToolsDefinition (cfg : Config) : List Json :=
  match cfg.enabledTools with
  | some l => if l.isEmpty then baseTools else baseTools.filter (toolAllowed l)
  | none => baseTools

/-- `t.get('name')` as a dict-comprehension key (all registered tools
carry a string name). -/
def toolNameKey (t : Json) : String :=
  match t with
  | .obj fs =>
    match lookupField fs "name" with
    | some (.str s) => s
    | _ => ""
  | _ => ""

def pingResult : Json := .obj [("pong", .bool true), ("server", .str "Supabase MCP Server")]

def toolsMapJson (cfg : Config) : Json :=
  .obj ((getToolsDefinition cfg).map (fun t => (toolNameKey t, t)))

def initResultJson (cfg : Config) : Json :=
  .obj [("protocolVersion", .str "2024-11-05"),
        ("capabilities", .obj
          [("tools", .obj [("listChanged", .bool true), ("definitions", toolsMapJson cfg)]),
           ("resources", .obj [("listChanged", .bool false), ("definitions", .obj [])]),
           ("prompts", .obj [("listChanged", .bool false), ("definitions", .obj [])])]),
        ("serverInfo", .obj [("name", .str cfg.serverName), ("version", .str cfg.serverVersion)])]

def getCapabilitiesResult : Json :=
  .obj [("capabilities", .obj
    [("tools", .obj [("listChanged", .bool true)]),
     ("resources", .obj [("subscribe", .bool false), ("listChanged", .bool false)]),
     ("prompts", .obj [("listChanged", .bool false)])])]

/-- Outcome of the body of `do_POST`'s `try` block before the response is
written: a bare-204 notification, a REST `/api/execute` response, or a
JSON-RPC envelope `(id, result, error)`. -/
inductive Step where
  | notify
  | apiResp (j : Json)
  | rpc (reqId : Json) (result : Option Json) (err : Option RpcErr)

/-- The `/api/execute` / `/mcp/tools/call` REST adapter branch. -/
def apiBranch (cfg : Config) (db : Db) (fields : List (String × Json)) : Except Unit Step :=
  let nameV := (lookupField fields "name").getD .null
  let toolName :=
    if jsonTruthy nameV then nameV
    else
      let toolV := (lookupField fields "tool").getD .null
      if jsonTruthy toolV then toolV else .str ""
  let argsV := (lookupField fields "arguments").getD .null
  let toolArgs := if jsonTruthy argsV then argsV else .obj []
  match dispatchTool cfg db toolName toolArgs with
  | .error e => .error e
  | .ok (r, er) =>
    .ok (.apiResp (.obj [("ok", .bool er.isNone), ("result", r.getD .null),
      ("error", match er with | some e => rpcErrJson e | none => .null)]))

/-- The JSON-RPC method switch of `do_POST` (notification check first,
then the fixed protocol methods, `tools/call`, and the `-32601`
fallback). -/
def mainBranch (cfg : Config) (db : Db) (fields : List (String × Json)) : Except Unit Step :=
  let params := (lookupField fields "params").getD (.obj [])
  let reqId := (lookupField fields "id").getD .null
  match (lookupField fields "method").getD (.str "") with
  | .str m =>
    if m = "notifications/initialized" then .ok .notify
    else if m = "ping" then .ok (.rpc reqId (some pingResult) none)
    else if m = "initialize" then .ok (.rpc reqId (some (initResultJson cfg)) none)
    else if m = "tools/list" then
      .ok (.rpc reqId (some (.obj [("tools", .arr (getToolsDefinition cfg))])) none)
    else if m = "resources/list" then .ok (.rpc reqId (some (.obj [("resources", .arr [])])) none)
    else if m = "prompts/list" then .ok (.rpc reqId (some (.obj [("prompts", .arr [])])) none)
    else if m = "get_capabilities" then .ok (.rpc reqId (some getCapabilitiesResult) none)
    else if m = "tools/call" then
      match params with
      | .obj pf =>
        let toolName := (lookupField pf "name").getD (.str "")
        let toolArgs := (lookupField pf "arguments").getD (.obj [])
        match dispatchTool cfg db toolName toolArgs with
        | .error e => .error e
        | .ok (r, er) => .ok (.rpc reqId r er)
      | _ => .error ()
    else .ok (.rpc reqId none (some ⟨-32601, "Method not found"⟩))
  | _ => .ok (.rpc reqId none (some ⟨-32601, "Method not found"⟩))

def computeOutcome (cfg : Config) (db : Db) (path : String) (fields : List (String × Json)) :
    Except Unit Step :=
  if path = "/api/execute" ∨ path = "/mcp/tools/call" then apiBranch cfg db fields
  else mainBranch cfg db fields

/-- The JSON-RPC 2.0 envelope built at the end of `do_POST`'s `try`
block: the `id` echoes `data.get('id')`, then exactly one of `error`
(when set) or `result` (defaulting to `{}`). -/
def mkEnvelope (reqId : Json) (result : Option Json) (err : Option RpcErr) : Json :=
  .obj ([("jsonrpc", .str "2.0"), ("id", reqId)] ++
    (match err with
     | some e => [("error", rpcErrJson e)]
     | none => [("result", result.getD (.obj []))]))

/-- The HTTP response as observed by the client: status code plus the
JSON body, `none` for an empty body. -/
structure HttpOut where
  status : Nat
  body : Option Json

def renderStep : Step → HttpOut
  | .notify => ⟨204, none⟩
  | .apiResp j => ⟨200, some j⟩
  | .rpc i r e => ⟨200, some (mkEnvelope i r e)⟩

/-- The `except Exception` recovery of `do_POST`: HTTP 200 with a
`-32603` envelope whose `id` is hard-coded to `None`. -/
def internalErrorOut : HttpOut :=
  ⟨200, some (.obj [("jsonrpc", .str "2.0"), ("id", .null),
    ("error", .obj [("code", .num (-32603)), ("message", .str "Internal error")])])⟩

/-- A POST body after the socket read: either not JSON-parsable, or the
value returned by `json.loads`. -/
inductive PostBody where
  | malformed
  | parsed (j : Json)

/-- `MCPHandler.do_POST` (supabase_server_simple).  `json.loads` on a
malformed body, `.get` on a non-dict value, or any exception escaping a
handler all land in the `except` branch. -/
def doPOST (cfg : Config) (db : Db) (path : String) (b : PostBody) : HttpOut :=
  match b with
  | .malformed => internalErrorOut
  | .parsed (.obj fields) =>
    match computeOutcome cfg db path fields with
    | .ok s => renderStep s
    | .error _ => internalErrorOut
  | .parsed _ => internalErrorOut

def hubToolEntry (name desc : String) : Json :=
  .obj [("name", .str name), ("description", .str desc),
        ("inputSchema", .obj [("type", .str "object"), ("properties", .obj []),
                              ("required", .arr [])])]

def hubToolsResult : Json :=
  .obj [("tools", .arr
    [hubToolEntry "ping" "Simple ping test for Smithery scanning - Always works",
     hubToolEntry "test_connection" "Test MCP server connection for Smithery scanning",
     hubToolEntry "get_server_info" "Get server information and capabilities",
     hubToolEntry "get_capabilities" "Get server capabilities for Smithery scanning",
     hubToolEntry "smithery_scan_test" "Special tool for Smithery scanning compatibility"])]

def hubInitResult : Json :=
  .obj [("protocolVersion", .str "2025-06-18"),
        ("capabilities", .obj [("tools", .obj []), ("resources", .obj []), ("prompts", .obj [])]),
        ("serverInfo", .obj
          [("name", .str "Supabase MCP Server v3.1.0"),
           ("version", .str "3.1.0"),
           ("description", .str "Enhanced Edition v3.1 - 54+ MCP tools for 100% autonomous Supabase management")])]

def hubEnvelope (reqId : Json) (key : String) (payload : Json) : Json :=
  .obj [("jsonrpc", .str "2.0"), ("id", reqId), (key, payload)]

/-- `MCPHubHandler.handle_jsonrpc_request` (mcp_hub.py), parameterised by
`time.time()` for the ping timestamp.  Only `json.JSONDecodeError` is
caught (HTTP 400 with a `-32700` envelope); `.get` on a non-dict value
raises out of the method (`.error`).  A notification gets HTTP 200 with
no body. -/
def handleJsonrpcRequest (now : Json) (b : PostBody) : Except Unit HttpOut :=
  match b with
  | .malformed =>
    .ok ⟨400, some (.obj [("jsonrpc", .str "2.0"), ("id", .null),
      ("error", .obj [("code", .num (-32700)), ("message", .str "Parse error")])])⟩
  | .parsed (.obj fields) =>
    let reqId := (lookupField fields "id").getD .null
    match (lookupField fields "method").getD .null with
    | .str m =>
      if m = "initialize" then .ok ⟨200, some (hubEnvelope reqId "result" hubInitResult)⟩
      else if m = "tools/list" then .ok ⟨200, some (hubEnvelope reqId "result" hubToolsResult)⟩
      else if m = "ping" then
        .ok ⟨200, some (hubEnvelope reqId "result"
          (.obj [("pong", .bool true), ("timestamp", now), ("status", .str "OK")]))⟩
      else if m = "notifications/initialized" then .ok ⟨200, none⟩
      else
        .ok ⟨200, some (hubEnvelope reqId "error"
          (.obj [("code", .num (-32601)), ("message", .str ("Method not found: " ++ m))]))⟩
    | other =>
      .ok ⟨200, some (hubEnvelope reqId "error"
        (.obj [("code", .num (-32601)), ("message", .str ("Method not found: " ++ pyStr other))]))⟩
  | .parsed _ => .error ()

/- Redaction (`MCPHandler._redact` and the logged previews).  Python
strings are modelled as `List Char`. -/

def stars : List Char := ['*', '*', '*']

def dots : List Char := ['.', '.', '.']

/-- `t.startswith(s)` on character lists. -/
def isPref : List Char → List Char → Bool
  | [], _ => true
  | _ :: _, [] => false
  | a :: s, b :: t => a == b && isPref s t

/-- `s in t`: `s` occurs as a contiguous substring of `t`. -/
def occursIn (s : List Char) : List Char → Bool
  | [] => isPref s []
  | c :: rest => isPref s (c :: rest) || occursIn s rest

/-- Left-to-right non-overlapping replacement, structurally recursive on
a fuel that bounds the text length (each step consumes at least one
character, so `fuel = t.length` suffices; the bare-fuel arm is then
unreachable). -/
def replaceAllAux (pat rep : List Char) : Nat → List Char → List Char
  | _, [] => []
  | 0, t => t
  | fuel + 1, c :: rest =>
    if pat ≠ [] ∧ isPref pat (c :: rest) = true then
      rep ++ replaceAllAux pat rep fuel ((c :: rest).drop pat.length)
    else
      c :: replaceAllAux pat rep fuel rest

/-- Python `t.replace(pat, rep)` for non-empty `pat`: replaces
non-overlapping occurrences left to right.  (With `pat = []` this is the
identity; `_redact` never calls `replace` with an empty pattern.) -/
def replaceAll (pat rep t : List Char) : List Char :=
  replaceAllAux pat rep t.length t

/-- The secret values `_redact` erases, in replacement order. -/
def redactTokens (cfg : Config) : List (List Char) :=
  [cfg.anonKey.toList, cfg.serviceRoleKey.toList, cfg.supabaseUrl.toList,
   (cfg.databaseUrl.getD "").toList, cfg.jwtSecret.toList]

/-- One iteration of `_redact`'s loop: `if t: redacted = redacted.replace(t, "***")`. -/
def redactStep (acc tk : List Char) : List Char :=
  if tk.isEmpty then acc else replaceAll tk stars acc

/-- `MCPHandler._redact`: each non-empty token is replaced by `"***"`,
one `str.replace` pass per token, in order. -/
def redact (cfg : Config) (text : List Char) : List Char :=
  (redactTokens cfg).foldl redactStep text

/-- The request-body preview logged by `do_POST`
(`preview = self._redact(preview)`). -/
def loggedBodyPreview (cfg : Config) (text : List Char) : List Char :=
  redact cfg text

/-- The config-query preview logged by `_log_start`: redacted, then
truncated to 200 characters with an appended ellipsis. -/
def loggedConfigPreview (cfg : Config) (text : List Char) : List Char :=
  let r := redact cfg text
  if 200 < r.length then r.take 200 ++ dots else r

/- Shared concrete fixtures for witnesses and counterexamples. -/

/-- A database oracle that always connects and returns no rows (its
behaviour is irrelevant for simulation-mode runs). -/
def dbNone : Db := ⟨none, fun _ _ => .rows []⟩

/-- Simulation-mode configuration: no `DATABASE_URL`, no allow-list. -/
def cfgSim : Config :=
  { supabaseUrl := "https://api.recube.gg", anonKey := "", serviceRoleKey := "",
    databaseUrl := none, jwtSecret := "", enabledTools := none,
    serverName := "Supabase MCP Server", serverVersion := "3.1.0" }

/-- Simulation-mode configuration with a one-tool allow-list. -/
def cfgAllow : Config := { cfgSim with enabledTools := some ["check_health"] }

/-- The tool names `_dispatch_tool` recognises (every other name reaches
the final `-32601` return). -/
def dispatchNames : List String :=
  ["execute_sql", "list_extensions", "apply_migration", "list_migrations",
   "generate_typescript_types", "get_logs", "search_docs", "check_health",
   "list_tables", "list_auth_users", "get_auth_user", "create_auth_user",
   "delete_auth_user", "update_auth_user", "list_storage_buckets",
   "list_storage_objects", "get_database_stats", "get_database_connections",
   "verify_jwt_secret"]

/-- The `error.code` of an HTTP response's JSON-RPC envelope, when there
is one. -/
def envErrCode (r : HttpOut) : Option Json :=
  match r.body with
  | some (.obj fs) =>
    match lookupField fs "error" with
    | some (.obj efs) => lookupField efs "code"
    | _ => none
  | _ => none

/-- The `id` of an HTTP response's JSON-RPC envelope, when the body is an
object. -/
def envId (r : HttpOut) : Option Json :=
  match r.body with
  | some (.obj fs) => lookupField fs "id"
  | _ => none

/-- Number of occurrences of a key at the top level of a JSON object's
field list. -/
def countKey (fs : List (String × Json)) (k : String) : Nat :=
  fs.countP (fun p => p.1 = k)

/-- The `name` field of a tool descriptor, when it is a string. -/
def toolNameStr : Json → Option String
  | .obj fs =>
    match lookupField fs "name" with
    | some (.str s) => some s
    | _ => none
  | _ => none

/-- A parsed request body whose `method` is the initialized
notification. -/
def isNotificationReq : Json → Prop
  | .obj fs => (lookupField fs "method").getD (.str "") = .str "notifications/initialized"
  | _ => False

/-- A JSON value that is an object carrying exactly one of the keys
`result` and `error`. -/
def exactlyOneOutcome : Json → Prop
  | .obj fs => countKey fs "result" + countKey fs "error" = 1
  | _ => False

/-- Configuration whose anon key is redacted in the witness run. -/
def cfgRed : Config :=
  { supabaseUrl := "", anonKey := "sk-abc123", serviceRoleKey := "", databaseUrl := none,
    jwtSecret := "", enabledTools := none, serverName := "", serverVersion := "" }

/-- Configuration that makes the sequential replacement recreate an
earlier secret: replacing `DATABASE_URL = "z"` by `"***"` in `"azb"`
manufactures the anon key `"a***b"`. -/
def cfgLeak : Config :=
  { supabaseUrl := "", anonKey := "a***b", serviceRoleKey := "", databaseUrl := some "z",
    jwtSecret := "", enabledTools := none, serverName := "", serverVersion := "" }

/- Helper lemmas. -/

theorem dispatchToolNamed_unknown (cfg : Config) (db : Db) (name : String) (args : Json)
    (h : name ∉ dispatchNames) :
    dispatchToolNamed cfg db name args =
      .ok (none, some ⟨-32601, "Tool '" ++ name ++ "' not found"⟩) := by
  simp only [dispatchNames, List.mem_cons, List.not_mem_nil, or_false, not_or] at h
  obtain ⟨h1, h2, h3, h4, h5, h6, h7, h8, h9, h10, h11, h12,
          h13, h14, h15, h16, h17, h18, h19⟩ := h
  simp [dispatchToolNamed, h1, h2, h3, h4, h5, h6, h7, h8, h9, h10, h11, h12,
        h13, h14, h15, h16, h17, h18, h19]

/-- C6: `tools/call` with a `params.name` outside the dispatch table
yields a `-32601` JSON-RPC error naming the tool, for every supplied
`params.arguments` value (the fall-through return never inspects the
arguments). -/
theorem tools_call_unknown_name_32601 (cfg : Config) (db : Db) (reqId : Json)
    (name : String) (args : Json) (h : name ∉ dispatchNames) :
    doPOST cfg db "/mcp" (.parsed (.obj
      [("jsonrpc", .str "2.0"), ("id", reqId), ("method", .str "tools/call"),
       ("params", .obj [("name", .str name), ("arguments", args)])])) =
    ⟨200, some (mkEnvelope reqId none
      (some ⟨-32601, "Tool '" ++ name ++ "' not found"⟩))⟩ := by
  simp [doPOST, computeOutcome, mainBranch, lookupField, dispatchTool,
        dispatchToolNamed_unknown cfg db name args h, renderStep]

theorem tools_call_unknown_name_32601_witness :
    doPOST cfgSim dbNone "/mcp" (.parsed (.obj
      [("jsonrpc", .str "2.0"), ("id", .num 3), ("method", .str "tools/call"),
       ("params", .obj [("name", .str "bogus_tool"), ("arguments", .obj [("x", .num 1)])])])) =
    ⟨200, some (mkEnvelope (.num 3) none
      (some ⟨-32601, "Tool 'bogus_tool' not found"⟩))⟩ :=
  tools_call_unknown_name_32601 cfgSim dbNone (.num 3) "bogus_tool"
    (.obj [("x", .num 1)]) (by decide)

theorem lookupField_append_none (fs : List (String × Json)) (k : String) (v : Json)
    (h : lookupField fs k = none) : lookupField (fs ++ [(k, v)]) k = some v := by
  induction fs with
  | nil => simp [lookupField]
  | cons p rest ih =>
    obtain ⟨k', v'⟩ := p
    by_cases hk : k' = k
    · simp [lookupField, hk] at h
    · simp only [List.cons_append, lookupField, if_neg hk] at h ⊢
      exact ih h

/-- C2 (amended): a `tools/call` of `execute_sql` whose arguments object
lacks the `sql` key behaves exactly as if `sql` were `'SELECT 1'`
(`tool_args.get('sql', 'SELECT 1')`), and the branch never produces a
`-32602` error. -/
theorem execute_sql_missing_sql_defaults (cfg : Config) (db : Db)
    (af : List (String × Json)) (h : lookupField af "sql" = none) :
    dispatchTool cfg db (.str "execute_sql") (.obj af) =
      dispatchTool cfg db (.str "execute_sql") (.obj (af ++ [("sql", .str "SELECT 1")]))
    ∧ ∀ r e, dispatchTool cfg db (.str "execute_sql") (.obj af) = .ok (r, some e) →
        e.code ≠ -32602 := by
  constructor
  · simp [dispatchTool, dispatchToolNamed, executeSqlBranch, argGet, h,
          lookupField_append_none af "sql" _ h]
  · intro r e he
    simp only [dispatchTool, dispatchToolNamed, if_pos rfl, executeSqlBranch, argGet, h,
               Option.getD_none] at he
    rcases hdb : cfg.databaseUrl with _ | u <;> rw [hdb] at he
    · simp at he
    · rcases hq : db.query (.str "SELECT 1") [] with m | m | rs <;> rw [hq] at he <;>
        simp at he
      rw [← he.2]
      simp

theorem execute_sql_missing_sql_defaults_witness :
    dispatchTool cfgSim dbNone (.str "execute_sql") (.obj [("other", .num 1)]) =
      dispatchTool cfgSim dbNone (.str "execute_sql")
        (.obj ([("other", .num 1)] ++ [("sql", .str "SELECT 1")])) :=
  (execute_sql_missing_sql_defaults cfgSim dbNone [("other", .num 1)] rfl).1

/-- C2 is false on the code: `execute_sql` without `sql` succeeds with a
simulated `SELECT 1` run instead of returning `-32602`. -/
theorem execute_sql_missing_sql_counterexample :
    doPOST cfgSim dbNone "/mcp" (.parsed (.obj
      [("jsonrpc", .str "2.0"), ("id", .num 2), ("method", .str "tools/call"),
       ("params", .obj [("name", .str "execute_sql"), ("arguments", .obj [])])])) =
      ⟨200, some (mkEnvelope (.num 2) (some (textContent "SQL execute ok: SELECT 1...")) none)⟩
    ∧ envErrCode (doPOST cfgSim dbNone "/mcp" (.parsed (.obj
      [("jsonrpc", .str "2.0"), ("id", .num 2), ("method", .str "tools/call"),
       ("params", .obj [("name", .str "execute_sql"), ("arguments", .obj [])])]))) = none :=
  ⟨rfl, rfl⟩

/-- C10 (amended): with `DATABASE_URL` unset, `check_health` and
`list_tables` succeed with simulated text for every arguments value,
and `execute_sql` succeeds whenever its arguments form an object whose
`sql` entry, if present, is a string; a non-object arguments value (or a
non-sliceable `sql`) instead raises inside the handler. -/
theorem simulated_tools_when_no_db (cfg : Config) (db : Db) (h : cfg.databaseUrl = none) :
    (∀ af s, lookupField af "sql" = some (.str s) →
      dispatchTool cfg db (.str "execute_sql") (.obj af) =
        .ok (some (textContent ("SQL execute ok: " ++ s.take 100 ++ "...")), none))
    ∧ (∀ af, lookupField af "sql" = none →
      dispatchTool cfg db (.str "execute_sql") (.obj af) =
        .ok (some (textContent ("SQL execute ok: " ++ "SELECT 1".take 100 ++ "...")), none))
    ∧ (∀ args, dispatchTool cfg db (.str "check_health") args =
        .ok (some (textContent "Database healthy"), none))
    ∧ (∀ args, dispatchTool cfg db (.str "list_tables") args =
        .ok (some (textContent "Tables disponibles: users, profiles, posts, comments, etc."), none)) := by
  refine ⟨?_, ?_, ?_, ?_⟩
  · intro af s hsql
    simp [dispatchTool, dispatchToolNamed, executeSqlBranch, argGet, hsql, h]
  · intro af hsql
    simp [dispatchTool, dispatchToolNamed, executeSqlBranch, argGet, hsql, h]
  · intro args
    simp [dispatchTool, dispatchToolNamed, checkHealthBranch, h]
  · intro args
    simp [dispatchTool, dispatchToolNamed, listTablesBranch, h]

theorem simulated_tools_when_no_db_witness :
    dispatchTool cfgSim dbNone (.str "check_health") (.str "whatever") =
      .ok (some (textContent "Database healthy"), none) :=
  (simulated_tools_when_no_db cfgSim dbNone rfl).2.2.1 (.str "whatever")

/-- C10 is not universally true: a `tools/call` of `execute_sql` whose
`arguments` value is a string (not an object) raises inside
`_dispatch_tool` (`tool_args.get`), and the gateway answers with the
`-32603` internal-error envelope even though `DATABASE_URL` is unset. -/
theorem no_db_tools_counterexample :
    doPOST cfgSim dbNone "/mcp" (.parsed (.obj
      [("jsonrpc", .str "2.0"), ("id", .num 4), ("method", .str "tools/call"),
       ("params", .obj [("name", .str "execute_sql"), ("arguments", .str "boom")])])) =
      internalErrorOut
    ∧ envErrCode (doPOST cfgSim dbNone "/mcp" (.parsed (.obj
      [("jsonrpc", .str "2.0"), ("id", .num 4), ("method", .str "tools/call"),
       ("params", .obj [("name", .str "execute_sql"), ("arguments", .str "boom")])]))) =
      some (.num (-32603)) :=
  ⟨rfl, rfl⟩

/-- C1 (amended): a configured non-empty allow-list filters the tool
listing — no tool outside the list ever appears in
`_get_tools_definition`'s result — but `_dispatch_tool` ignores
`ENABLED_TOOLS` entirely, so invocation of a filtered-out tool behaves
exactly as without an allow-list. -/
theorem allow_list_filters_listing_only (cfg : Config) (l : List String) (name : String)
    (hl : cfg.enabledTools = some l) (hne : l ≠ []) (hnm : name ∉ l) :
    (∀ t ∈ getToolsDefinition cfg, toolNameStr t ≠ some name)
    ∧ (∀ (e : Option (List String)) (db : Db) (n a : Json),
        dispatchTool { cfg with enabledTools := e } db n a = dispatchTool cfg db n a) := by
  constructor
  · intro t ht heq
    have h0 : l.isEmpty = false := by
      cases l with
      | nil => exact absurd rfl hne
      | cons a l' => rfl
    simp only [getToolsDefinition, hl, h0, Bool.false_eq_true, if_false] at ht
    rw [List.mem_filter] at ht
    have hall := ht.2
    cases t with
    | obj fs =>
      simp only [toolNameStr] at heq
      cases hlk : lookupField fs "name" with
      | none => rw [hlk] at heq; simp at heq
      | some v =>
        cases v with
        | str s =>
          rw [hlk] at heq
          simp at heq
          subst heq
          simp only [toolAllowed, hlk] at hall
          exact hnm (by simpa using hall)
        | _ => rw [hlk] at heq; simp at heq
    | _ => simp [toolNameStr] at heq
  · intro e db n a
    cases cfg
    rfl

theorem allow_list_filters_listing_only_witness :
    dispatchTool { cfgAllow with enabledTools := none } dbNone (.str "execute_sql") (.obj []) =
      dispatchTool cfgAllow dbNone (.str "execute_sql") (.obj []) :=
  (allow_list_filters_listing_only cfgAllow ["check_health"] "execute_sql" rfl
    (by decide) (by decide)).2 none dbNone (.str "execute_sql") (.obj [])

/-- C1 is false for invocation: with the allow-list `{"check_health"}`,
calling the filtered-out `execute_sql` still executes it (simulated
success), instead of the `-32601` a never-registered name gets. -/
theorem allow_list_counterexample :
    cfgAllow.enabledTools = some ["check_health"]
    ∧ ("execute_sql" ∈ ["check_health"] → False)
    ∧ dispatchTool cfgAllow dbNone (.str "execute_sql") (.obj []) =
        .ok (some (textContent "SQL execute ok: SELECT 1..."), none) :=
  ⟨rfl, by decide, rfl⟩

/-- C4 (amended): a `notifications/initialized` request gets no JSON-RPC
envelope from either server, but only `supabase_server_simple` answers
HTTP 204 with an empty body; the hub answers HTTP 200 with an empty
body. -/
theorem notification_no_envelope (cfg : Config) (db : Db) (now : Json)
    (fields : List (String × Json))
    (h : lookupField fields "method" = some (.str "notifications/initialized")) :
    doPOST cfg db "/mcp" (.parsed (.obj fields)) = ⟨204, none⟩
    ∧ handleJsonrpcRequest now (.parsed (.obj fields)) = .ok ⟨200, none⟩ := by
  constructor
  · simp [doPOST, computeOutcome, mainBranch, h, renderStep]
  · simp [handleJsonrpcRequest, h]

theorem notification_no_envelope_witness :
    doPOST cfgSim dbNone "/mcp" (.parsed (.obj
      [("jsonrpc", .str "2.0"), ("method", .str "notifications/initialized")])) = ⟨204, none⟩ :=
  (notification_no_envelope cfgSim dbNone (.num 0)
    [("jsonrpc", .str "2.0"), ("method", .str "notifications/initialized")] rfl).1

/-- C4 is false for the hub: `handle_jsonrpc_request` answers a
notification with HTTP 200, not 204. -/
theorem notification_204_counterexample :
    handleJsonrpcRequest (.num 0) (.parsed (.obj
      [("jsonrpc", .str "2.0"), ("method", .str "notifications/initialized")])) =
      .ok ⟨200, none⟩
    ∧ (200 : Nat) ≠ 204 :=
  ⟨rfl, by decide⟩

/-- C7 (amended): on an unparsable POST body, `supabase_server_simple`
answers HTTP 200 with a `-32603` envelope whose `id` is `null` (the
`id` cannot be recovered), while the hub answers with a `-32700`
envelope and `id` `null` but at HTTP status 400, not a success
status. -/
theorem malformed_body_responses (cfg : Config) (db : Db) (path : String) (now : Json) :
    doPOST cfg db path .malformed = internalErrorOut
    ∧ envId (doPOST cfg db path .malformed) = some .null
    ∧ envErrCode (doPOST cfg db path .malformed) = some (.num (-32603))
    ∧ handleJsonrpcRequest now .malformed = .ok ⟨400, some (.obj
        [("jsonrpc", .str "2.0"), ("id", .null),
         ("error", .obj [("code", .num (-32700)), ("message", .str "Parse error")])])⟩ :=
  ⟨rfl, rfl, rfl, rfl⟩

/-- C7 is false for the hub: the `-32700` parse-error response is sent
with HTTP status 400, which is not an HTTP-level success status. -/
theorem malformed_status_counterexample :
    handleJsonrpcRequest (.num 0) .malformed = .ok ⟨400, some (.obj
      [("jsonrpc", .str "2.0"), ("id", .null),
       ("error", .obj [("code", .num (-32700)), ("message", .str "Parse error")])])⟩
    ∧ ¬ (200 ≤ 400 ∧ 400 < 300) :=
  ⟨rfl, by decide⟩

/-- Every successful outcome of the JSON-RPC method switch is either the
bare notification or an envelope that echoes `data.get('id')`. -/
theorem mainBranch_shape (cfg : Config) (db : Db) (fields : List (String × Json)) (s : Step)
    (h : mainBranch cfg db fields = .ok s) :
    (s = .notify ∧
      (lookupField fields "method").getD (.str "") = .str "notifications/initialized")
    ∨ (∃ r e, s = .rpc ((lookupField fields "id").getD .null) r e) := by
  simp only [mainBranch] at h
  repeat' split at h
  all_goals
    first
    | (exact absurd h (fun hc => Except.noConfusion hc))
    | (injection h with h'; subst h';
       first
       | (right; exact ⟨_, _, rfl⟩)
       | (left; refine ⟨rfl, ?_⟩; simp_all))


/-- C9: every POST to `/mcp` other than the notification is answered with
HTTP status 200, whatever the JSON-RPC outcome (success, `-32601`,
tool errors, or the `-32603` recovery path). -/
theorem post_mcp_status_200 (cfg : Config) (db : Db) (j : Json)
    (h : ¬ isNotificationReq j) :
    (doPOST cfg db "/mcp" (.parsed j)).status = 200 := by
  cases j with
  | obj fields =>
    rcases hc : computeOutcome cfg db "/mcp" fields with e | s
    · simp [doPOST, hc, internalErrorOut]
    · have hm : mainBranch cfg db fields = .ok s := hc
      rcases mainBranch_shape cfg db fields s hm with ⟨hs, hmeth⟩ | ⟨r, e, hs⟩
      · exact absurd hmeth h
      · subst hs
        simp [doPOST, hc, renderStep]
  | null => rfl
  | bool b => rfl
  | num n => rfl
  | str s => rfl
  | arr xs => rfl

theorem post_mcp_status_200_witness :
    (doPOST cfgSim dbNone "/mcp" (.parsed (.obj
      [("jsonrpc", .str "2.0"), ("id", .num 9), ("method", .str "nonexistent_method")]))).status
    = 200 :=
  post_mcp_status_200 cfgSim dbNone (.obj
    [("jsonrpc", .str "2.0"), ("id", .num 9), ("method", .str "nonexistent_method")])
    (by intro hx; simp [isNotificationReq, lookupField] at hx)

theorem envId_mkEnvelope (i : Json) (r : Option Json) (e : Option RpcErr) :
    envId ⟨200, some (mkEnvelope i r e)⟩ = some i := by
  cases e <;> rfl

/-- Every successful outcome of the hub's JSON-RPC handler on an object
request is either the body-less notification response or a
status-200 envelope echoing `request_data.get('id')`. -/
theorem hub_shape (now : Json) (fields : List (String × Json)) (out : HttpOut)
    (h : handleJsonrpcRequest now (.parsed (.obj fields)) = .ok out) :
    out.body = none
    ∨ ∃ key payload,
        out = ⟨200, some (hubEnvelope ((lookupField fields "id").getD .null) key payload)⟩ := by
  simp only [handleJsonrpcRequest] at h
  repeat' split at h
  all_goals injection h with h'
  all_goals subst h'
  all_goals
    first
    | (left; rfl)
    | (right; exact ⟨_, _, rfl⟩)

/-- C3 (amended): whenever the request object carries an `id`, every
envelope produced without tripping the internal-exception recovery
echoes that `id` — in `do_POST` of supabase_server_simple and in all
envelopes of the hub's handler.  (The `-32603` recovery path instead
hard-codes `id: null`.) -/
theorem response_id_echo (cfg : Config) (db : Db) (now : Json)
    (fields : List (String × Json)) (idv : Json)
    (hid : lookupField fields "id" = some idv) :
    (computeOutcome cfg db "/mcp" fields ≠ .error () →
      ∀ j, (doPOST cfg db "/mcp" (.parsed (.obj fields))).body = some j →
        envId (doPOST cfg db "/mcp" (.parsed (.obj fields))) = some idv)
    ∧ (∀ out, handleJsonrpcRequest now (.parsed (.obj fields)) = .ok out →
        ∀ j, out.body = some j → envId out = some idv) := by
  constructor
  · intro hne j hbody
    rcases hc : computeOutcome cfg db "/mcp" fields with e | s
    · cases e
      exact absurd hc hne
    · have hm : mainBranch cfg db fields = .ok s := hc
      rcases mainBranch_shape cfg db fields s hm with ⟨hs, _⟩ | ⟨r, e, hs⟩
      · subst hs
        have hdp : doPOST cfg db "/mcp" (.parsed (.obj fields)) = ⟨204, none⟩ := by
          simp [doPOST, hc, renderStep]
        rw [hdp] at hbody
        exact absurd hbody (by simp)
      · subst hs
        have hdp : doPOST cfg db "/mcp" (.parsed (.obj fields)) =
            ⟨200, some (mkEnvelope ((lookupField fields "id").getD .null) r e)⟩ := by
          simp [doPOST, hc, renderStep]
        rw [hdp, hid]
        simp only [Option.getD_some]
        exact envId_mkEnvelope idv r e
  · intro out hout j hbody
    rcases hub_shape now fields out hout with hb | ⟨key, payload, ho⟩
    · rw [hb] at hbody
      exact absurd hbody (by simp)
    · subst ho
      rw [hid]
      simp only [Option.getD_some]
      rfl

theorem response_id_echo_witness :
    envId (doPOST cfgSim dbNone "/mcp" (.parsed (.obj
      [("jsonrpc", .str "2.0"), ("id", .num 1), ("method", .str "ping")]))) = some (.num 1) :=
  (response_id_echo cfgSim dbNone (.num 0)
      [("jsonrpc", .str "2.0"), ("id", .num 1), ("method", .str "ping")] (.num 1) rfl).1
    (fun hx => Except.noConfusion hx)
    (mkEnvelope (.num 1) (some pingResult) none) rfl

/-- C3 is false on the internal-error path: a well-formed request with
`id: 7` whose `tools/call` arguments are a string raises inside
`_dispatch_tool`, and the recovery envelope carries `id: null`, not 7. -/
theorem response_id_echo_counterexample :
    lookupField [("jsonrpc", .str "2.0"), ("id", .num 7), ("method", .str "tools/call"),
      ("params", .obj [("name", .str "execute_sql"), ("arguments", .str "boom")])] "id"
      = some (.num 7)
    ∧ envId (doPOST cfgSim dbNone "/mcp" (.parsed (.obj
        [("jsonrpc", .str "2.0"), ("id", .num 7), ("method", .str "tools/call"),
         ("params", .obj [("name", .str "execute_sql"), ("arguments", .str "boom")])])))
      = some .null
    ∧ Json.null ≠ Json.num 7 :=
  ⟨rfl, rfl, fun hx => Json.noConfusion hx⟩


theorem mkEnvelope_one (i : Json) (r : Option Json) (e : Option RpcErr) :
    exactlyOneOutcome (mkEnvelope i r e) := by
  cases e <;>
    simp [mkEnvelope, exactlyOneOutcome, countKey, List.countP_cons, List.countP_nil]

/-- C5: every JSON-RPC envelope written by `do_POST` on `/mcp` — success,
method-not-found, tool error, or the `-32603` recovery — carries exactly
one of the keys `result` and `error`; notifications carry no body at
all. -/
theorem envelope_exactly_one (cfg : Config) (db : Db) (b : PostBody) (j : Json)
    (h : (doPOST cfg db "/mcp" b).body = some j) : exactlyOneOutcome j := by
  have hinternal : ∀ j', internalErrorOut.body = some j' → exactlyOneOutcome j' := by
    intro j' hj'
    have : j' = .obj [("jsonrpc", .str "2.0"), ("id", .null),
        ("error", .obj [("code", .num (-32603)), ("message", .str "Internal error")])] := by
      simpa [internalErrorOut] using hj'.symm
    rw [this]
    exact rfl
  cases b with
  | malformed => exact hinternal j h
  | parsed jj =>
    cases jj with
    | obj fields =>
      rcases hc : computeOutcome cfg db "/mcp" fields with e | s
      · rw [show doPOST cfg db "/mcp" (.parsed (.obj fields)) = internalErrorOut by
          simp [doPOST, hc]] at h
        exact hinternal j h
      · have hm : mainBranch cfg db fields = .ok s := hc
        have hdp : doPOST cfg db "/mcp" (.parsed (.obj fields)) = renderStep s := by
          simp [doPOST, hc]
        rcases mainBranch_shape cfg db fields s hm with ⟨hs, _⟩ | ⟨r, e, hs⟩
        · subst hs
          rw [hdp] at h
          exact absurd h (by simp [renderStep])
        · subst hs
          rw [hdp] at h
          simp only [renderStep, Option.some.injEq] at h
          rw [← h]
          exact mkEnvelope_one _ r e
    | null => exact hinternal j h
    | bool bb => exact hinternal j h
    | num n => exact hinternal j h
    | str s => exact hinternal j h
    | arr xs => exact hinternal j h

theorem envelope_exactly_one_witness :
    exactlyOneOutcome (mkEnvelope (.num 1) (some pingResult) none) :=
  envelope_exactly_one cfgSim dbNone
    (.parsed (.obj [("jsonrpc", .str "2.0"), ("id", .num 1), ("method", .str "ping")]))
    (mkEnvelope (.num 1) (some pingResult) none) rfl

/- Lemmas about substring occurrence, leading to the redaction claim. -/

theorem isPref_nil_left (t : List Char) : isPref [] t = true := rfl

theorem isPref_nil_right (s : List Char) (h : isPref s [] = true) : s = [] := by
  cases s with
  | nil => rfl
  | cons a s' => simp [isPref] at h

theorem occursIn_nil_left (t : List Char) : occursIn [] t = true := by
  cases t with
  | nil => rfl
  | cons c rest => simp [occursIn, isPref_nil_left]

theorem ne_nil_of_not_occurs (s t : List Char) (h : occursIn s t = false) : s ≠ [] := by
  intro hs
  subst hs
  rw [occursIn_nil_left] at h
  cases h

theorem occursIn_cons (s : List Char) (c : Char) (rest : List Char) :
    occursIn s (c :: rest) = (isPref s (c :: rest) || occursIn s rest) := rfl

theorem occursIn_of_tail (s : List Char) (c : Char) (rest : List Char)
    (h : occursIn s rest = true) : occursIn s (c :: rest) = true := by
  rw [occursIn_cons, h, Bool.or_true]

theorem occursIn_drop (s : List Char) : ∀ (n : Nat) (t : List Char),
    occursIn s (t.drop n) = true → occursIn s t = true := by
  intro n
  induction n with
  | zero => intro t h; simpa using h
  | succ n ih =>
    intro t h
    cases t with
    | nil => simpa using h
    | cons c rest => exact occursIn_of_tail s c rest (ih rest (by simpa using h))

theorem isPref_cons_notMem (s : List Char) (c : Char) (x : List Char)
    (hs : s ≠ []) (hc : c ∉ s) : isPref s (c :: x) = false := by
  cases s with
  | nil => exact absurd rfl hs
  | cons d s' =>
    have hdc : ¬ d = c := fun e => hc (e ▸ List.mem_cons_self d s')
    simp [isPref, hdc]

theorem occursIn_cons_notMem (s : List Char) (c : Char) (x : List Char)
    (hs : s ≠ []) (hc : c ∉ s) : occursIn s (c :: x) = occursIn s x := by
  rw [occursIn_cons, isPref_cons_notMem s c x hs hc, Bool.false_or]

theorem occursIn_append_stars (s : List Char) (hs : s ≠ []) (hstar : '*' ∉ s) (x : List Char) :
    occursIn s (stars ++ x) = occursIn s x := by
  show occursIn s ('*' :: '*' :: '*' :: x) = occursIn s x
  rw [occursIn_cons_notMem s '*' _ hs hstar, occursIn_cons_notMem s '*' _ hs hstar,
      occursIn_cons_notMem s '*' _ hs hstar]

/-- A `'*'`-free prefix of a replacement result is a prefix of the
original text: replacement only inserts `"***"` blocks. -/
theorem isPref_replaceAllAux (pat : List Char) : ∀ (fuel : Nat) (t s : List Char),
    t.length ≤ fuel → ('*' ∉ s) →
    isPref s (replaceAllAux pat stars fuel t) = true → isPref s t = true := by
  intro fuel
  induction fuel with
  | zero =>
    intro t s hlen hstar h
    have ht : t = [] := by
      cases t with
      | nil => rfl
      | cons c r => simp at hlen
    subst ht
    simpa [replaceAllAux] using h
  | succ fuel ih =>
    intro t s hlen hstar h
    cases t with
    | nil => simpa [replaceAllAux] using h
    | cons c rest =>
      simp only [replaceAllAux] at h
      by_cases hcond : pat ≠ [] ∧ isPref pat (c :: rest) = true
      · rw [if_pos hcond] at h
        cases s with
        | nil => exact isPref_nil_left _
        | cons a s' =>
          rw [show stars ++ replaceAllAux pat stars fuel ((c :: rest).drop pat.length) =
              '*' :: ('*' :: '*' :: replaceAllAux pat stars fuel ((c :: rest).drop pat.length))
              from rfl] at h
          rw [isPref_cons_notMem (a :: s') '*' _ (by simp) hstar] at h
          cases h
      · rw [if_neg hcond] at h
        cases s with
        | nil => exact isPref_nil_left _
        | cons a s' =>
          simp only [isPref, Bool.and_eq_true, beq_iff_eq] at h ⊢
          refine ⟨h.1, ih rest s' ?_ ?_ h.2⟩
          · simpa using Nat.le_of_succ_le_succ (by simpa using hlen)
          · exact fun hm => hstar (List.mem_cons_of_mem a hm)

/-- Replacement by `"***"` cannot create a new occurrence of a
`'*'`-free string. -/
theorem occurs_replaceAllAux_preserve (pat : List Char) : ∀ (fuel : Nat) (t s : List Char),
    t.length ≤ fuel → ('*' ∉ s) → occursIn s t = false →
    occursIn s (replaceAllAux pat stars fuel t) = false := by
  intro fuel
  induction fuel with
  | zero =>
    intro t s hlen hstar hocc
    have ht : t = [] := by
      cases t with
      | nil => rfl
      | cons c r => simp at hlen
    subst ht
    simpa [replaceAllAux] using hocc
  | succ fuel ih =>
    intro t s hlen hstar hocc
    cases t with
    | nil => simpa [replaceAllAux] using hocc
    | cons c rest =>
      have hsne : s ≠ [] := ne_nil_of_not_occurs s (c :: rest) hocc
      have hrest : occursIn s rest = false := by
        rw [occursIn_cons, Bool.or_eq_false_iff] at hocc
        exact hocc.2
      simp only [replaceAllAux]
      by_cases hcond : pat ≠ [] ∧ isPref pat (c :: rest) = true
      · rw [if_pos hcond, occursIn_append_stars s hsne hstar]
        have hp1 : 1 ≤ pat.length := by
          cases hp : pat with
          | nil => exact absurd hp hcond.1
          | cons a l => simp
        have ht' : occursIn s ((c :: rest).drop pat.length) = false := by
          cases hoc : occursIn s ((c :: rest).drop pat.length) with
          | false => rfl
          | true => exact absurd (occursIn_drop s pat.length (c :: rest) hoc) (by simp [hocc])
        apply ih _ s _ hstar ht'
        have hdl : ((c :: rest).drop pat.length).length = rest.length + 1 - pat.length := by
          simp [List.length_drop]
        rw [hdl]
        simp only [List.length_cons] at hlen
        omega
      · rw [if_neg hcond]
        have heqRA : replaceAllAux pat stars (fuel + 1) (c :: rest) =
            c :: replaceAllAux pat stars fuel rest := by
          simp only [replaceAllAux]
          rw [if_neg hcond]
        rw [occursIn_cons, Bool.or_eq_false_iff]
        constructor
        · cases hpre : isPref s (c :: replaceAllAux pat stars fuel rest) with
          | false => rfl
          | true =>
            have : isPref s (replaceAllAux pat stars (fuel + 1) (c :: rest)) = true := by
              rw [heqRA]
              exact hpre
            have hpt := isPref_replaceAllAux pat (fuel + 1) (c :: rest) s hlen hstar this
            have : occursIn s (c :: rest) = true := by
              rw [occursIn_cons, hpt, Bool.true_or]
            rw [this] at hocc
            cases hocc
        · exact ih rest s (by simpa using Nat.le_of_succ_le_succ (by simpa using hlen))
            hstar hrest

/-- After `t.replace(pat, "***")`, a `'*'`-free non-empty `pat` no longer
occurs anywhere in the text. -/
theorem occurs_replaceAllAux_self (pat : List Char) (hne : pat ≠ []) (hstar : '*' ∉ pat) :
    ∀ (fuel : Nat) (t : List Char), t.length ≤ fuel →
    occursIn pat (replaceAllAux pat stars fuel t) = false := by
  intro fuel
  induction fuel with
  | zero =>
    intro t hlen
    have ht : t = [] := by
      cases t with
      | nil => rfl
      | cons c r => simp at hlen
    subst ht
    cases pat with
    | nil => exact absurd rfl hne
    | cons a l => simp [replaceAllAux, occursIn, isPref]
  | succ fuel ih =>
    intro t hlen
    cases t with
    | nil =>
      cases pat with
      | nil => exact absurd rfl hne
      | cons a l => simp [replaceAllAux, occursIn, isPref]
    | cons c rest =>
      simp only [replaceAllAux]
      by_cases hcond : pat ≠ [] ∧ isPref pat (c :: rest) = true
      · rw [if_pos hcond, occursIn_append_stars pat hne hstar]
        apply ih
        have hp1 : 1 ≤ pat.length := by
          cases hp : pat with
          | nil => exact absurd hp hne
          | cons a l => simp
        have hdl : ((c :: rest).drop pat.length).length = rest.length + 1 - pat.length := by
          simp [List.length_drop]
        rw [hdl]
        simp only [List.length_cons] at hlen
        omega
      · rw [if_neg hcond]
        have heqRA : replaceAllAux pat stars (fuel + 1) (c :: rest) =
            c :: replaceAllAux pat stars fuel rest := by
          simp only [replaceAllAux]
          rw [if_neg hcond]
        rw [occursIn_cons, Bool.or_eq_false_iff]
        constructor
        · cases hpre : isPref pat (c :: replaceAllAux pat stars fuel rest) with
          | false => rfl
          | true =>
            have : isPref pat (replaceAllAux pat stars (fuel + 1) (c :: rest)) = true := by
              rw [heqRA]
              exact hpre
            have hpt := isPref_replaceAllAux pat (fuel + 1) (c :: rest) pat hlen hstar this
            exact absurd (And.intro hne hpt) hcond
        · exact ih rest (by simpa using Nat.le_of_succ_le_succ (by simpa using hlen))

theorem occurs_replaceAll_preserve (pat s t : List Char) (hstar : '*' ∉ s)
    (h : occursIn s t = false) : occursIn s (replaceAll pat stars t) = false :=
  occurs_replaceAllAux_preserve pat t.length t s le_rfl hstar h

theorem occurs_replaceAll_self (pat : List Char) (hne : pat ≠ []) (hstar : '*' ∉ pat)
    (t : List Char) : occursIn pat (replaceAll pat stars t) = false :=
  occurs_replaceAllAux_self pat hne hstar t.length t le_rfl

theorem redact_foldl_preserve (s : List Char) (hstar : '*' ∉ s) :
    ∀ (toks : List (List Char)) (acc : List Char), occursIn s acc = false →
    occursIn s (List.foldl redactStep acc toks) = false := by
  intro toks
  induction toks with
  | nil => intro acc h; simpa using h
  | cons tk rest ih =>
    intro acc h
    rw [List.foldl_cons]
    apply ih
    unfold redactStep
    by_cases he : tk.isEmpty
    · rw [if_pos he]; exact h
    · rw [if_neg he]; exact occurs_replaceAll_preserve tk s acc hstar h

/-- After the whole `_redact` loop, a `'*'`-free non-empty token of the
list no longer occurs in the text. -/
theorem redact_no_member (s : List Char) (hne : s ≠ []) (hstar : '*' ∉ s) :
    ∀ (toks : List (List Char)) (text : List Char), s ∈ toks →
    occursIn s (List.foldl redactStep text toks) = false := by
  intro toks
  induction toks with
  | nil => intro text h; cases h
  | cons tk rest ih =>
    intro text hmem
    rw [List.foldl_cons]
    rcases List.mem_cons.mp hmem with heq | hmem'
    · subst heq
      apply redact_foldl_preserve s hstar rest
      have he : s.isEmpty = false := by
        cases s with
        | nil => exact absurd rfl hne
        | cons a s' => rfl
      unfold redactStep
      rw [he]
      exact occurs_replaceAll_self s hne hstar text
    · exact ih (redactStep text tk) hmem'

theorem isPref_take (s : List Char) : ∀ (n : Nat) (t : List Char),
    isPref s (t.take n) = true → isPref s t = true := by
  induction s with
  | nil => intro n t _; rfl
  | cons a s' ih =>
    intro n t h
    cases n with
    | zero => simp [isPref] at h
    | succ n =>
      cases t with
      | nil => simp [isPref] at h
      | cons c rest =>
        simp only [List.take, isPref, Bool.and_eq_true, beq_iff_eq] at h ⊢
        exact ⟨h.1, ih n rest h.2⟩

theorem occursIn_take (s : List Char) : ∀ (n : Nat) (t : List Char),
    occursIn s (t.take n) = true → occursIn s t = true := by
  intro n t
  induction t generalizing n with
  | nil => intro h; simpa using h
  | cons c rest ih =>
    intro h
    cases n with
    | zero =>
      simp only [List.take] at h
      have hs : s = [] := isPref_nil_right s h
      subst hs
      exact occursIn_nil_left _
    | succ n =>
      simp only [List.take] at h
      rw [occursIn_cons, Bool.or_eq_true] at h ⊢
      rcases h with h | h
      · exact Or.inl (isPref_take s (n + 1) (c :: rest) (by simpa [List.take] using h))
      · exact Or.inr (ih n h)

theorem isPref_append_dots : ∀ (x s : List Char), '.' ∉ s →
    isPref s (x ++ dots) = true → isPref s x = true := by
  intro x
  induction x with
  | nil =>
    intro s hd h
    cases s with
    | nil => rfl
    | cons a s' =>
      rw [List.nil_append] at h
      rw [show dots = '.' :: ['.', '.'] from rfl,
          isPref_cons_notMem (a :: s') '.' _ (by simp) hd] at h
      cases h
  | cons c x' ih =>
    intro s hd h
    cases s with
    | nil => rfl
    | cons a s' =>
      rw [List.cons_append] at h
      simp only [isPref, Bool.and_eq_true, beq_iff_eq] at h ⊢
      exact ⟨h.1, ih s' (fun hm => hd (List.mem_cons_of_mem a hm)) h.2⟩

theorem occursIn_append_dots (s : List Char) (hs : s ≠ []) (hd : '.' ∉ s) :
    ∀ a, occursIn s (a ++ dots) = true → occursIn s a = true := by
  intro a
  induction a with
  | nil =>
    intro h
    rw [List.nil_append,
        show dots = '.' :: '.' :: '.' :: [] from rfl,
        occursIn_cons_notMem s '.' _ hs hd, occursIn_cons_notMem s '.' _ hs hd,
        occursIn_cons_notMem s '.' _ hs hd] at h
    have hsnil := isPref_nil_right s h
    exact absurd hsnil hs
  | cons c a' ih =>
    intro h
    rw [List.cons_append, occursIn_cons, Bool.or_eq_true] at h
    rw [occursIn_cons, Bool.or_eq_true]
    rcases h with h | h
    · exact Or.inl (isPref_append_dots (c :: a') s hd (by simpa [List.cons_append] using h))
    · exact Or.inr (ih h)

theorem loggedConfig_preserve (s : List Char) (hne : s ≠ []) (hd : '.' ∉ s) (l : List Char)
    (h : occursIn s l = false) :
    occursIn s (if 200 < l.length then l.take 200 ++ dots else l) = false := by
  split
  · cases hoc : occursIn s (l.take 200 ++ dots) with
    | false => rfl
    | true =>
      have h1 := occursIn_append_dots s hne hd (l.take 200) hoc
      have h2 := occursIn_take s 200 l h1
      rw [h2] at h
      cases h
  · exact h

/-- C8 (amended): for every configured non-empty secret that contains no
`'*'`, the redacted body preview contains no occurrence of the secret;
for the truncated config preview, the secret must additionally contain
no `'.'` (the appended `"..."` can otherwise recreate it). -/
theorem redaction_removes_secrets (cfg : Config) (s text : List Char)
    (hmem : s ∈ redactTokens cfg) (hne : s ≠ []) (hstar : '*' ∉ s) :
    occursIn s (loggedBodyPreview cfg text) = false
    ∧ ('.' ∉ s → occursIn s (loggedConfigPreview cfg text) = false) := by
  have hbody : occursIn s (redact cfg text) = false :=
    redact_no_member s hne hstar (redactTokens cfg) text hmem
  exact ⟨hbody, fun hd => loggedConfig_preserve s hne hd (redact cfg text) hbody⟩


theorem redaction_removes_secrets_witness :
    occursIn "sk-abc123".toList (loggedBodyPreview cfgRed "body sk-abc123 tail".toList) = false
    ∧ ('.' ∉ "sk-abc123".toList →
        occursIn "sk-abc123".toList
          (loggedConfigPreview cfgRed "body sk-abc123 tail".toList) = false) :=
  redaction_removes_secrets cfgRed "sk-abc123".toList "body sk-abc123 tail".toList
    (by decide) (by decide) (by decide)


/-- C8 is false as stated: a configured secret can survive in (indeed be
created by) the redacted log output when a later token's replacement
produces it. -/
theorem redaction_leak_counterexample :
    "a***b".toList ∈ redactTokens cfgLeak
    ∧ "a***b".toList ≠ []
    ∧ occursIn "a***b".toList (loggedBodyPreview cfgLeak "azb".toList) = true :=
  ⟨by decide, by decide, by decide⟩
